import Mathlib

/-!
Verification development for the arpc RPC client runtime and its pub/sub
server layer. The definitions below are a shallow embedding of the Go
source: the Client connection runtime (Call, CallAsync, Notify, PushMsg,
the send loop, newReqMessage, the session and async-handler tables) and
the pub/sub Server handlers (onAuthenticate, onSubscribe, onUnsubscribe,
onPublish, onPublishToOne, getOrMakeTopic). Machine integers are modelled
as Nat with explicit reduction mod 2 ^ 64 or 2 ^ 32 where the source uses
uint64 or uint32. Channels and timers are modelled by explicit outcome
parameters: an enqueue on the bounded send queue either is accepted or
times out, and a synchronous wait for a response either delivers a message
or times out.
-/

deriving instance DecidableEq for Except

namespace Arpc

/-- Association list lookup: first entry whose key matches, as a Go map read. -/
def alLookup {κ α : Type} [DecidableEq κ] (m : List (κ × α)) (k : κ) : Option α :=
  match m with
  | [] => none
  | (k2, v) :: rest => if k2 = k then some v else alLookup rest k

/-- Association list erase: drop every entry with the key, as a Go map delete. -/
def alErase {κ α : Type} [DecidableEq κ] (m : List (κ × α)) (k : κ) : List (κ × α) :=
  m.filter (fun p => p.1 ≠ k)

/-- Association list insert: overwrite the binding for the key, as a Go map write. -/
def alInsert {κ α : Type} [DecidableEq κ] (m : List (κ × α)) (k : κ) (v : α) :
    List (κ × α) :=
  (k, v) :: alErase m k

theorem alLookup_erase_self {κ α : Type} [DecidableEq κ] (m : List (κ × α)) (k : κ) :
    alLookup (alErase m k) k = none := by
  induction m with
  | nil => rfl
  | cons p rest ih =>
    by_cases h : p.1 = k
    · simpa [alErase, h] using ih
    · simpa [alErase, alLookup, h] using ih

theorem alLookup_insert_self {κ α : Type} [DecidableEq κ] (m : List (κ × α))
    (k : κ) (v : α) : alLookup (alInsert m k v) k = some v := by
  simp [alInsert, alLookup]

theorem alLookup_erase_ne {κ α : Type} [DecidableEq κ] (m : List (κ × α))
    (k k2 : κ) (h : k ≠ k2) : alLookup (alErase m k) k2 = alLookup m k2 := by
  have hk2 : ¬ k = k2 := h
  have hk2s : ¬ k2 = k := fun e => h e.symm
  induction m with
  | nil => rfl
  | cons p rest ih =>
    simp only [alErase, ne_eq, decide_not] at ih ⊢
    by_cases hp : p.1 = k
    · have hpk2 : ¬ p.1 = k2 := by rw [hp]; exact h
      simp [List.filter_cons, alLookup, hp, hpk2, hk2, ih]
    · by_cases hq : p.1 = k2
      · simp [List.filter_cons, alLookup, hp, hq, hk2s]
      · simp [List.filter_cons, alLookup, hp, hq, ih]

theorem alLookup_insert_ne {κ α : Type} [DecidableEq κ] (m : List (κ × α))
    (k k2 : κ) (v : α) (h : k ≠ k2) :
    alLookup (alInsert m k v) k2 = alLookup m k2 := by
  simp [alInsert, alLookup, h]
  exact alLookup_erase_ne m k k2 h

/-! Wire layout. The header is 15 bytes: body length (uint32 little endian
at offset 0), sequence (uint64 little endian at offset 4), command byte at
offset 12, async flag at offset 13, method-name length at offset 14. -/

/-- Header length in bytes (4 + 8 + 1 + 1 + 1). -/
def headLen : Nat := 15

/-- Little-endian bytes of a uint32 value. -/
def putUint32LE (n : Nat) : List Nat :=
  [n % 256, n / 256 % 256, n / 256 ^ 2 % 256, n / 256 ^ 3 % 256]

/-- Little-endian bytes of a uint64 value. -/
def putUint64LE (n : Nat) : List Nat :=
  [n % 256, n / 256 % 256, n / 256 ^ 2 % 256, n / 256 ^ 3 % 256,
   n / 256 ^ 4 % 256, n / 256 ^ 5 % 256, n / 256 ^ 6 % 256, n / 256 ^ 7 % 256]

/-- Read back a little-endian uint64 from exactly eight bytes. -/
def getUint64LE (b : List Nat) : Nat :=
  match b with
  | [b0, b1, b2, b3, b4, b5, b6, b7] =>
      b0 + 256 * b1 + 256 ^ 2 * b2 + 256 ^ 3 * b3 + 256 ^ 4 * b4 +
        256 ^ 5 * b5 + 256 ^ 6 * b6 + 256 ^ 7 * b7
  | _ => 0

theorem getUint64LE_putUint64LE (n : Nat) :
    getUint64LE (putUint64LE n) = n % 2 ^ 64 := by
  simp only [putUint64LE, getUint64LE]
  omega

/-- Command byte for a request frame. Modelled from the spec: the command
byte distinguishes request, response and error frames; the concrete byte
values are not fixed by the spec, three distinct values are used. -/
def rpcCmdReq : Nat := 1

/-- Command byte for a response frame. Modelled from the spec. -/
def rpcCmdRsp : Nat := 2

/-- Command byte for an error frame. Modelled from the spec. -/
def rpcCmdErr : Nat := 3

/-- The designated forever sentinel: the largest int64 duration. -/
def timeForever : Int := 2 ^ 63 - 1

/-- Message: the owning frame buffer (header bytes plus body bytes) together
with its reference count. The buffer contents are exactly what newReqMessage
writes. Modelled from the spec: Retain and Release are not under src, the
spec states a Message is created with refcount 1, retain increments, release
decrements and returns the buffer to a pool at zero. -/
structure Msg where
  buf : List Nat
  rc : Nat
  deriving DecidableEq

/-- Sequence number of a message, read back from bytes 4 to 11 of its buffer. -/
def Msg.seqOf (m : Msg) : Nat :=
  getUint64LE ((m.buf.drop 4).take 8)

/-- Command byte of a message, byte 12 of its buffer. -/
def Msg.cmdOf (m : Msg) : Nat :=
  m.buf.getD 12 0

/-- Body bytes of a message: everything after the 15 header bytes. -/
def Msg.body (m : Msg) : List Nat :=
  m.buf.drop headLen

/-- Msg.Retain: increment the reference count. Modelled from the spec. -/
def Msg.retain (m : Msg) : Msg :=
  { m with rc := m.rc + 1 }

/-- Msg.Release: decrement the reference count and return the buffer to the
given buffer pool when the count reaches zero. Modelled from the spec. -/
def Msg.release (m : Msg) (pool : List (List Nat)) : Msg × List (List Nat) :=
  if m.rc = 1 then ({ m with rc := 0 }, m.buf :: pool)
  else ({ m with rc := m.rc - 1 }, pool)

/-- Session of one synchronous in-flight call: its sequence number. The
single-slot delivery channel is modelled by the delivery outcome parameter
of call. -/
structure RpcSession where
  seq : Nat
  deriving DecidableEq

/-- Async handler of one in-flight asynchronous call: an identifier for the
Go callback closure and the optionally armed expiry timer, recorded as the
duration it was armed with. -/
structure AsyncHandler where
  cb : Nat
  t : Option Int
  deriving DecidableEq

/-- Client connection runtime state: running and reconnecting flags, the
local sequence counter (uint64), the session and async-handler tables, the
bounded outbound queue together with its capacity, and the pools that
recycle sessions, handlers and buffers. -/
structure ClientState where
  running : Bool
  reconnecting : Bool
  seq : Nat
  sessionMap : List (Nat × RpcSession)
  asyncHandlerMap : List (Nat × AsyncHandler)
  chSend : List Msg
  sendQueueSize : Nat
  sessionPool : List RpcSession
  handlerPool : List AsyncHandler
  bufPool : List (List Nat)
  deriving DecidableEq

/-- Outcome of a bounded-wait enqueue on the outbound queue: either the
queue accepted the message before the timer fired, or the timer fired. -/
inductive EnqOutcome where
  | accepted
  | timedOut
  deriving DecidableEq

/-- Outcome of the synchronous wait on the session delivery slot: either a
response message arrived, or the timer fired. -/
inductive DelOutcome where
  | delivered (m : Msg)
  | timedOut
  deriving DecidableEq

/-- Errors returned by the client entry points. The invalid timeout error is
the generic formatted error Call builds for a non-positive timeout, distinct
from clientTimeout; remote carries the body bytes of an error-command
response. -/
inductive Err where
  | clientStopped
  | clientReconnecting
  | clientTimeout
  | clientQueueIsFull
  | invalidTimeout (t : Int)
  | remote (body : List Nat)
  deriving DecidableEq

/-- sessionGet: take a recycled session from the pool, or make a fresh one,
and set its sequence number. Modelled from the spec: sessions are recycled
through a pool. -/
def sessionGet (pool : List RpcSession) (seq : Nat) : RpcSession × List RpcSession :=
  match pool with
  | [] => ({ seq := seq }, [])
  | s :: rest => ({ s with seq := seq }, rest)

/-- asyncHandlerGet: take a recycled handler from the pool, or make a fresh
one, holding the callback and no timer yet. Modelled from the spec: handlers
are recycled through a pool. -/
def asyncHandlerGet (pool : List AsyncHandler) (cb : Nat) :
    AsyncHandler × List AsyncHandler :=
  match pool with
  | [] => ({ cb := cb, t := none }, [])
  | _ :: rest => ({ cb := cb, t := none }, rest)

/-- Client.newReqMessage: build a request frame carrying the next sequence
number. The counter is advanced by one as a uint64 (wrapping mod 2 ^ 64) and
the header fields are written little endian, then the method bytes and the
encoded payload bytes follow. The payload encoding is out of scope, so the
already-encoded data bytes are a parameter. -/
def newReqMessage (st : ClientState) (method data : List Nat) (async : Nat) :
    Msg × ClientState :=
  let bodyLen := method.length + data.length
  let newSeq := (st.seq + 1) % 2 ^ 64
  let buf := putUint32LE (bodyLen % 2 ^ 32) ++ putUint64LE newSeq ++
    [rpcCmdReq, async % 256, method.length % 256] ++ method ++ data
  ({ buf := buf, rc := 1 }, { st with seq := newSeq })

theorem seqOf_newReqMessage (st : ClientState) (method data : List Nat) (a : Nat) :
    Msg.seqOf (newReqMessage st method data a).1 = (st.seq + 1) % 2 ^ 64 := by
  have hlt : (st.seq + 1) % 2 ^ 64 < 2 ^ 64 := Nat.mod_lt _ (by norm_num)
  simp only [newReqMessage, Msg.seqOf, putUint32LE, putUint64LE, List.cons_append,
    List.nil_append, List.drop_succ_cons, List.drop_zero, List.take_succ_cons,
    List.take_zero]
  have h := getUint64LE_putUint64LE ((st.seq + 1) % 2 ^ 64)
  simp only [putUint64LE] at h
  rw [h]
  exact Nat.mod_eq_of_lt hlt

/-- Client.addSession: register the session for a sequence number. -/
def addSession (st : ClientState) (seq : Nat) (s : RpcSession) : ClientState :=
  { st with sessionMap := alInsert st.sessionMap seq s }

/-- Client.addAsyncHandler: register the async handler for a sequence number. -/
def addAsyncHandler (st : ClientState) (seq : Nat) (h : AsyncHandler) : ClientState :=
  { st with asyncHandlerMap := alInsert st.asyncHandlerMap seq h }

/-- Client.deleteAsyncHandler: atomically look the handler up and, when
present, remove it from the table and recycle it to the handler pool. -/
def deleteAsyncHandler (st : ClientState) (seq : Nat) : ClientState :=
  match alLookup st.asyncHandlerMap seq with
  | some h =>
      { st with asyncHandlerMap := alErase st.asyncHandlerMap seq,
                handlerPool := h :: st.handlerPool }
  | none => st

/-- The body of the expiry timer armed by CallAsync: it deregisters the
async handler for the sequence number. -/
def asyncTimerFire (st : ClientState) (seq : Nat) : ClientState :=
  deleteAsyncHandler st seq

/-- Arm the expiry timer on the handler registered for the sequence number:
the handler object already stored in the table gets its timer field set to
the armed duration. -/
def armAsyncTimer (st : ClientState) (seq : Nat) (d : Int) : ClientState :=
  match alLookup st.asyncHandlerMap seq with
  | some h =>
      { st with asyncHandlerMap := alInsert st.asyncHandlerMap seq { h with t := some d } }
  | none => st

/-- Client.Call: synchronous call. Fails at once when stopped, when
reconnecting, or when the timeout is not positive (a generic invalid
timeout error, built before any message exists). Otherwise it builds a
request message, registers a session for its sequence number, enqueues the
message bounded by the timeout, then waits on the delivery slot bounded by
the same timer. On delivery the response buffer is returned to the buffer
pool; a response command yields its body bytes (the dynamically typed
binding into the out parameter is out of scope), an error command yields a
remote error from the body bytes. The deferred cleanup of the source runs
on every exit path after registration: the session is removed from the
table and recycled to the session pool. -/
def call (st : ClientState) (method data : List Nat) (timeout : Int)
    (enq : EnqOutcome) (del : DelOutcome) :
    Except Err (Option (List Nat)) × ClientState :=
  if !st.running then (.error .clientStopped, st)
  else if st.reconnecting then (.error .clientReconnecting, st)
  else if timeout ≤ 0 then (.error (.invalidTimeout timeout), st)
  else
    let p := newReqMessage st method data 0
    let msg := p.1
    let st1 := p.2
    let seq := msg.seqOf
    let gs := sessionGet st1.sessionPool seq
    let sess := gs.1
    let st2 := addSession { st1 with sessionPool := gs.2 } seq sess
    let cleanup := fun (s : ClientState) =>
      { s with sessionMap := alErase s.sessionMap seq,
               sessionPool := sess :: s.sessionPool }
    match enq with
    | .timedOut => (.error .clientTimeout, cleanup st2)
    | .accepted =>
      let st3 := { st2 with chSend := st2.chSend ++ [msg] }
      match del with
      | .timedOut => (.error .clientTimeout, cleanup st3)
      | .delivered rmsg =>
        let st4 := { st3 with bufPool := rmsg.buf :: st3.bufPool }
        if rmsg.cmdOf = rpcCmdRsp then (.ok (some rmsg.body), cleanup st4)
        else if rmsg.cmdOf = rpcCmdErr then (.error (.remote rmsg.body), cleanup st4)
        else (.ok none, cleanup st4)

/-- Client.CallAsync: asynchronous call. The request message is built first
(the source builds it in the var block before the running check), then the
stopped and reconnecting guards apply. When a callback is supplied an async
handler is registered before the enqueue attempt. A zero timeout enqueues
without blocking: when the queue has free capacity the message is enqueued
and retained, otherwise the message is released, the handler deregistered,
and the queue-full error returned. Any other timeout enqueues bounded by a
timer: on acceptance the message is retained and, when a callback was
supplied, the expiry timer is armed with the original timeout on the
registered handler; on timer expiry the message is released, the handler
deregistered, and the timeout error returned. -/
def callAsync (st : ClientState) (method data : List Nat) (hasCb : Bool)
    (cb : Nat) (timeout : Int) (enq : EnqOutcome) : Except Err Unit × ClientState :=
  let p := newReqMessage st method data 1
  let msg := p.1
  let st0 := p.2
  let seq := msg.seqOf
  if !st0.running then (.error .clientStopped, st0)
  else if st0.reconnecting then (.error .clientReconnecting, st0)
  else
    let st1 :=
      if hasCb then
        let gh := asyncHandlerGet st0.handlerPool cb
        addAsyncHandler { st0 with handlerPool := gh.2 } seq gh.1
      else st0
    if timeout = 0 then
      if st1.chSend.length < st1.sendQueueSize then
        (.ok (), { st1 with chSend := st1.chSend ++ [msg.retain] })
      else
        let rel := msg.release st1.bufPool
        (.error .clientQueueIsFull,
          deleteAsyncHandler { st1 with bufPool := rel.2 } seq)
    else
      match enq with
      | .accepted =>
        let st2 := { st1 with chSend := st1.chSend ++ [msg.retain] }
        if hasCb then (.ok (), armAsyncTimer st2 seq timeout)
        else (.ok (), st2)
      | .timedOut =>
        let rel := msg.release st1.bufPool
        (.error .clientTimeout,
          deleteAsyncHandler { st1 with bufPool := rel.2 } seq)

/-- Client.Notify: CallAsync with no callback. -/
def notify (st : ClientState) (method data : List Nat) (timeout : Int)
    (enq : EnqOutcome) : Except Err Unit × ClientState :=
  callAsync st method data false 0 timeout enq

/-- Client.PushMsg: raw enqueue of an already-built message. Stopped and
reconnecting guards first; a negative timeout is normalized to the forever
sentinel. Under forever the enqueue blocks until the queue accepts and the
message is retained; under zero it is non-blocking, retaining on free
capacity and returning the queue-full error otherwise (the message is not
released); under a bounded positive timeout acceptance retains the message
and timer expiry returns the timeout error. -/
def pushMsg (st : ClientState) (msg : Msg) (timeout : Int) (enq : EnqOutcome) :
    Except Err Unit × ClientState :=
  if !st.running then (.error .clientStopped, st)
  else if st.reconnecting then (.error .clientReconnecting, st)
  else
    let t := if timeout < 0 then timeForever else timeout
    if t = timeForever then
      (.ok (), { st with chSend := st.chSend ++ [msg.retain] })
    else if t = 0 then
      if st.chSend.length < st.sendQueueSize then
        (.ok (), { st with chSend := st.chSend ++ [msg.retain] })
      else (.error .clientQueueIsFull, st)
    else
      match enq with
      | .accepted => (.ok (), { st with chSend := st.chSend ++ [msg.retain] })
      | .timedOut => (.error .clientTimeout, st)

/-- One iteration of Client.sendLoop for one message consumed from the
outbound queue: when not reconnecting the message payload (its full frame
buffer) is written via the transport strategy, and in both cases the
message is released exactly once against the buffer pool. Returns the list
of writes performed, the released message, and the updated buffer pool. -/
def sendLoopStep (reconnecting : Bool) (msg : Msg) (pool : List (List Nat)) :
    List (List Nat) × Msg × List (List Nat) :=
  let sent := if reconnecting then [] else [msg.buf]
  let rel := msg.release pool
  (sent, rel.1, rel.2)

/-! Pub/sub layer. Connections are identified by a ClientId. The per
connection UserData of the source is the clientTopics map from topic name
to topic agent; absence of an entry in clientData models a nil UserData,
that is an unauthenticated connection. Topic envelope decoding
(Topic.fromBytes) and the value binding of ctx.Bind are out of scope of
the staged source, so each handler takes the decode result as a
parameter. -/

/-- Identifier of one connected client. -/
abbrev ClientId := Nat

/-- Topic: name plus opaque payload bytes. -/
structure Topic where
  name : String
  payload : List Nat
  deriving DecidableEq

/-- TopicAgent: the per-topic set of subscribed connections. Modelled from
the spec: TopicAgent.Add, TopicAgent.Delete, TopicAgent.Publish and
TopicAgent.PublishToOne are not under src; the spec states the agent keeps
a set of subscribed connections, added on first subscribe, removed on
unsubscribe or disconnect. -/
structure TopicAgent where
  name : String
  conns : List ClientId
  deriving DecidableEq

/-- Pub/sub server errors. -/
inductive PubErr where
  | invalidPassword
  | invalidTopicEmpty
  | bindFail (e : String)
  | decodeFail (e : String)
  deriving DecidableEq

/-- Reply a handler sends back on the request context: ctx.Write nil on
success, ctx.Error on failure. -/
inductive Reply where
  | ok
  | err (e : PubErr)
  deriving DecidableEq

/-- Pub/sub server state: the configured shared secret, the server-level
topic registry, and the per-connection topic sets; a connection with no
clientData entry has nil UserData, that is it has not authenticated. The
per-connection set stores the subscribed topic names (the source stores
pointers to the agents, keyed by name). -/
structure ServerState where
  password : String
  topics : List (String × TopicAgent)
  clientData : List (ClientId × List String)
  deriving DecidableEq

/-- Server.invalid: a connection is invalid while its UserData is nil. -/
def invalid (st : ServerState) (cli : ClientId) : Bool :=
  (alLookup st.clientData cli).isNone

/-- Server.addClient: successful authentication attaches a fresh empty
clientTopics state to the connection. -/
def addClient (st : ServerState) (cli : ClientId) : ServerState :=
  { st with clientData := alInsert st.clientData cli [] }

/-- Server.getOrMakeTopic: return the registered agent, or create and
register a fresh one for the name (double-checked locking collapses to a
single check in this sequential model). -/
def getOrMakeTopic (st : ServerState) (topic : String) : TopicAgent × ServerState :=
  match alLookup st.topics topic with
  | some tp => (tp, st)
  | none =>
      let tp : TopicAgent := { name := topic, conns := [] }
      (tp, { st with topics := alInsert st.topics topic tp })

/-- TopicAgent.Add on the agent registered under the name: add the
connection to the member set when not already present. Modelled from the
spec. -/
def topicAgentAdd (st : ServerState) (topic : String) (cli : ClientId) : ServerState :=
  match alLookup st.topics topic with
  | some tp =>
      if cli ∈ tp.conns then st
      else { st with topics := alInsert st.topics topic { tp with conns := tp.conns ++ [cli] } }
  | none => st

/-- TopicAgent.Delete on the agent registered under the name: remove the
connection from the member set. Modelled from the spec. -/
def topicAgentDelete (st : ServerState) (topic : String) (cli : ClientId) : ServerState :=
  match alLookup st.topics topic with
  | some tp =>
      let tp2 := { tp with conns := tp.conns.filter (fun c => c ≠ cli) }
      { st with topics := alInsert st.topics topic tp2 }
  | none => st

/-- Member set of the agent registered for a topic name (empty when the
topic was never seen). -/
def agentConns (st : ServerState) (topic : String) : List ClientId :=
  match alLookup st.topics topic with
  | some tp => tp.conns
  | none => []

/-- Server.onAuthenticate: bind the password string from the body; on a
bind error reply with that error. A matching secret attaches the client
topic state and replies success; a mismatch replies the invalid password
error and attaches nothing. -/
def onAuthenticate (st : ServerState) (cli : ClientId)
    (bindRes : Except String String) : Option Reply × ServerState :=
  match bindRes with
  | .error e => (some (.err (.bindFail e)), st)
  | .ok passwd =>
      if passwd = st.password then (some .ok, addClient st cli)
      else (some (.err .invalidPassword), st)

/-- Server.onSubscribe: an unauthenticated connection is logged and gets no
reply and no state change. Otherwise a decode failure is replied as an
error; an empty topic name is replied as the invalid empty topic error. A
new topic name is recorded in the per-connection set, the agent is looked
up or created and the connection added to its member set, and success is
replied; an already-subscribed name replies success with no further
change. -/
def onSubscribe (st : ServerState) (cli : ClientId)
    (decodeRes : Except String Topic) : Option Reply × ServerState :=
  if invalid st cli then (none, st)
  else
    match decodeRes with
    | .error e => (some (.err (.decodeFail e)), st)
    | .ok topic =>
        if topic.name ≠ "" then
          let cts := (alLookup st.clientData cli).getD []
          if topic.name ∈ cts then (some .ok, st)
          else
            let st1 := (getOrMakeTopic st topic.name).2
            let st2 := { st1 with
              clientData := alInsert st1.clientData cli (topic.name :: cts) }
            (some .ok, topicAgentAdd st2 topic.name cli)
        else (some (.err .invalidTopicEmpty), st)

/-- Server.onUnsubscribe: an unauthenticated connection is logged and gets
no reply and no state change. Otherwise decode failures and the empty name
are replied as errors; a subscribed name is removed from the
per-connection set and from the agent member set and success is replied;
an unsubscribed name replies success with no change. -/
def onUnsubscribe (st : ServerState) (cli : ClientId)
    (decodeRes : Except String Topic) : Option Reply × ServerState :=
  if invalid st cli then (none, st)
  else
    match decodeRes with
    | .error e => (some (.err (.decodeFail e)), st)
    | .ok topic =>
        if topic.name ≠ "" then
          let cts := (alLookup st.clientData cli).getD []
          if topic.name ∈ cts then
            let st1 := { st with
              clientData := alInsert st.clientData cli (cts.filter (fun n => n ≠ topic.name)) }
            (some .ok, topicAgentDelete st1 topic.name cli)
          else (some .ok, st)
        else (some (.err .invalidTopicEmpty), st)

/-- TopicAgent.Publish fan-out: the connections the envelope is delivered
to, every member except the excluded originator, each via a non-blocking
best-effort enqueue. Modelled from the spec. -/
def publishTargets (members : List ClientId) (exclude : Option ClientId) :
    List ClientId :=
  match exclude with
  | some ex => members.filter (fun c => c ≠ ex)
  | none => members

/-- Server.onPublish: an unauthenticated connection is logged and gets no
reply, no state change and no delivery. Otherwise decode failures and the
empty name are replied as errors; a valid topic is acknowledged, the agent
looked up or created, and the envelope fanned out to every subscribed
connection except the publisher. Returns the reply, the delivery targets,
and the state. -/
def onPublish (st : ServerState) (cli : ClientId)
    (decodeRes : Except String Topic) :
    Option Reply × List ClientId × ServerState :=
  if invalid st cli then (none, [], st)
  else
    match decodeRes with
    | .error e => (some (.err (.decodeFail e)), [], st)
    | .ok topic =>
        if topic.name ≠ "" then
          let p := getOrMakeTopic st topic.name
          (some .ok, publishTargets p.1.conns (some cli), p.2)
        else (some (.err .invalidTopicEmpty), [], st)

/-- Server.onPublishToOne: as onPublish, but the envelope goes to exactly
one arbitrarily chosen subscribed connection other than the publisher,
modelled as the first such member. -/
def onPublishToOne (st : ServerState) (cli : ClientId)
    (decodeRes : Except String Topic) :
    Option Reply × List ClientId × ServerState :=
  if invalid st cli then (none, [], st)
  else
    match decodeRes with
    | .error e => (some (.err (.decodeFail e)), [], st)
    | .ok topic =>
        if topic.name ≠ "" then
          let p := getOrMakeTopic st topic.name
          (some .ok, (publishTargets p.1.conns (some cli)).take 1, p.2)
        else (some (.err .invalidTopicEmpty), [], st)

theorem newReqMessage_snd (st : ClientState) (method data : List Nat) (a : Nat) :
    (newReqMessage st method data a).2 = { st with seq := (st.seq + 1) % 2 ^ 64 } := rfl

theorem asyncHandlerGet_fst (pool : List AsyncHandler) (cb : Nat) :
    (asyncHandlerGet pool cb).1 = { cb := cb, t := none } := by
  cases pool <;> rfl

theorem alLookup_deleteAsyncHandler_self (st : ClientState) (seq : Nat) :
    alLookup (deleteAsyncHandler st seq).asyncHandlerMap seq = none := by
  unfold deleteAsyncHandler
  cases h : alLookup st.asyncHandlerMap seq with
  | none => simpa using h
  | some a => simp [alLookup_erase_self]

/-- Concrete client state used by witness and counterexample theorems:
running, not reconnecting, fresh counter, empty tables, send queue of
capacity one. -/
def exClient : ClientState :=
  { running := true, reconnecting := false, seq := 0, sessionMap := [],
    asyncHandlerMap := [], chSend := [], sendQueueSize := 1,
    sessionPool := [], handlerPool := [], bufPool := [] }

/-- Concrete message used by witness theorems. -/
def exMsg : Msg := { buf := [9], rc := 1 }

/-- Concrete client state whose outbound queue is full. -/
def exClientFull : ClientState := { exClient with chSend := [exMsg] }

/-- Concrete client state whose sequence counter sits two below the uint64
wrap point. -/
def exClientWrap : ClientState := { exClient with seq := 2 ^ 64 - 2 }

/-- Claim C10: Call on a running, non-reconnecting client with a timeout
less than or equal to zero returns the generic invalid-timeout error, not
clientTimeout, and leaves the state untouched: no message is built, no
session registered, nothing enqueued. -/
theorem call_nonpositive_timeout (st : ClientState) (method data : List Nat)
    (t : Nat) (enq : EnqOutcome) (del : DelOutcome)
    (hrun : st.running = true) (hrec : st.reconnecting = false) :
    call st method data (-(t : Int)) enq del =
      (.error (.invalidTimeout (-(t : Int))), st) := by
  have hle : (-(t : Int)) ≤ 0 := by omega
  simp [call, hrun, hrec, hle]

/-- Witness for claim C10 at the concrete client and timeout minus three. -/
theorem call_nonpositive_timeout_witness :
    exClient.running = true ∧ exClient.reconnecting = false ∧
      call exClient [] [] (-((3 : Nat) : Int)) .accepted .timedOut =
        (.error (.invalidTimeout (-((3 : Nat) : Int))), exClient) :=
  ⟨rfl, rfl, call_nonpositive_timeout exClient [] [] 3 .accepted .timedOut rfl rfl⟩

/-- Claim C6: for each message the send loop consumes, the payload is
written exactly when the client is not reconnecting, and in both cases the
message is released exactly once: its refcount drops by one and its buffer
returns to the pool exactly when the count reached zero. -/
theorem sendLoop_writes_and_releases (reconnecting : Bool) (msg : Msg)
    (pool : List (List Nat)) :
    (sendLoopStep reconnecting msg pool).1 =
      (if reconnecting then [] else [msg.buf]) ∧
    (sendLoopStep reconnecting msg pool).2.1.rc = msg.rc - 1 ∧
    (sendLoopStep reconnecting msg pool).2.2 =
      (if msg.rc = 1 then msg.buf :: pool else pool) := by
  by_cases h : msg.rc = 1
  · simp [sendLoopStep, Msg.release, h]
  · simp [sendLoopStep, Msg.release, h]

/-- Claim C2: CallAsync with a zero timeout on a full queue of a running,
non-reconnecting client returns the queue-full error, and afterwards no
async handler for the sequence number of the call remains registered. -/
theorem callAsync_zero_timeout_full (st : ClientState) (method data : List Nat)
    (hasCb : Bool) (cb : Nat) (enq : EnqOutcome)
    (hrun : st.running = true) (hrec : st.reconnecting = false)
    (hfull : st.sendQueueSize ≤ st.chSend.length) :
    (callAsync st method data hasCb cb 0 enq).1 = .error .clientQueueIsFull ∧
    alLookup (callAsync st method data hasCb cb 0 enq).2.asyncHandlerMap
      ((st.seq + 1) % 2 ^ 64) = none := by
  have hseq := seqOf_newReqMessage st method data 1
  have hnl : ¬ (st.chSend.length < st.sendQueueSize) := Nat.not_lt.mpr hfull
  cases hasCb <;>
    simp [callAsync, newReqMessage_snd, hseq, addAsyncHandler, asyncHandlerGet,
      hrun, hrec, hnl, alLookup_deleteAsyncHandler_self]

/-- Witness for claim C2 at the concrete full-queue client. -/
theorem callAsync_zero_timeout_full_witness :
    exClientFull.running = true ∧ exClientFull.reconnecting = false ∧
      exClientFull.sendQueueSize ≤ exClientFull.chSend.length ∧
      ((callAsync exClientFull [] [] true 7 0 .accepted).1 =
          .error .clientQueueIsFull ∧
        alLookup (callAsync exClientFull [] [] true 7 0 .accepted).2.asyncHandlerMap
          ((exClientFull.seq + 1) % 2 ^ 64) = none) :=
  ⟨rfl, rfl, by decide,
    callAsync_zero_timeout_full exClientFull [] [] true 7 .accepted rfl rfl
      (by decide)⟩

/-- Counterexample for claim C1: on the concrete running client a CallAsync
with a callback and a zero timeout is successfully enqueued, yet the
registered async handler has no armed expiry timer at all, so under the
zero-timeout non-blocking policy no expiry timer equal to the original
timeout is armed. -/
theorem callAsync_zero_timeout_no_timer :
    (callAsync exClient [] [] true 7 0 .accepted).1 = .ok () ∧
    alLookup (callAsync exClient [] [] true 7 0 .accepted).2.asyncHandlerMap 1 =
      some { cb := 7, t := none } := by decide

/-- Claim C1 as amended: only under a positive bounded-wait timeout does a
successful enqueue with a callback arm an expiry timer equal to the
original timeout on the registered handler, and firing that timer
deregisters the handler and recycles it to the pool; under the zero-timeout
policy the handler stays registered with no timer. -/
theorem callAsync_positive_timeout_arms_timer (st : ClientState)
    (method data : List Nat) (cb : Nat) (timeout : Int)
    (hrun : st.running = true) (hrec : st.reconnecting = false)
    (hpos : 0 < timeout) :
    (callAsync st method data true cb timeout .accepted).1 = .ok () ∧
    alLookup (callAsync st method data true cb timeout .accepted).2.asyncHandlerMap
      ((st.seq + 1) % 2 ^ 64) = some { cb := cb, t := some timeout } ∧
    alLookup (asyncTimerFire (callAsync st method data true cb timeout .accepted).2
        ((st.seq + 1) % 2 ^ 64)).asyncHandlerMap ((st.seq + 1) % 2 ^ 64) = none ∧
    ({ cb := cb, t := some timeout } : AsyncHandler) ∈
      (asyncTimerFire (callAsync st method data true cb timeout .accepted).2
        ((st.seq + 1) % 2 ^ 64)).handlerPool := by
  have hseq := seqOf_newReqMessage st method data 1
  have hnz : ¬ (timeout = 0) := by omega
  simp [callAsync, newReqMessage_snd, hseq, addAsyncHandler, asyncHandlerGet_fst,
    hrun, hrec, hnz, armAsyncTimer, asyncTimerFire, deleteAsyncHandler,
    alLookup_insert_self, alLookup_erase_self]

/-- Witness for the amended claim C1 at the concrete client and timeout 5. -/
theorem callAsync_positive_timeout_arms_timer_witness :
    exClient.running = true ∧ exClient.reconnecting = false ∧ (0 : Int) < 5 ∧
      ((callAsync exClient [] [] true 7 5 .accepted).1 = .ok () ∧
        alLookup (callAsync exClient [] [] true 7 5 .accepted).2.asyncHandlerMap
          ((exClient.seq + 1) % 2 ^ 64) = some { cb := 7, t := some 5 } ∧
        alLookup (asyncTimerFire (callAsync exClient [] [] true 7 5 .accepted).2
            ((exClient.seq + 1) % 2 ^ 64)).asyncHandlerMap
          ((exClient.seq + 1) % 2 ^ 64) = none ∧
        ({ cb := 7, t := some 5 } : AsyncHandler) ∈
          (asyncTimerFire (callAsync exClient [] [] true 7 5 .accepted).2
            ((exClient.seq + 1) % 2 ^ 64)).handlerPool) :=
  ⟨rfl, rfl, by decide,
    callAsync_positive_timeout_arms_timer exClient [] [] 7 5 rfl rfl (by decide)⟩

/-- Claim C3: Call on a running, non-reconnecting client with a positive
timeout removes the session registered for the sequence number of the call
from the session table and recycles it to the session pool on every exit
path: enqueue timeout, delivery timeout, response command delivery or
error command delivery. -/
theorem call_session_always_cleaned (st : ClientState) (method data : List Nat)
    (timeout : Int) (enq : EnqOutcome) (del : DelOutcome)
    (hrun : st.running = true) (hrec : st.reconnecting = false)
    (hpos : 0 < timeout) :
    alLookup (call st method data timeout enq del).2.sessionMap
      ((st.seq + 1) % 2 ^ 64) = none ∧
    (sessionGet st.sessionPool ((st.seq + 1) % 2 ^ 64)).1 ∈
      (call st method data timeout enq del).2.sessionPool := by
  have hseq := seqOf_newReqMessage st method data 0
  have hns : ¬ (timeout ≤ 0) := by omega
  cases enq with
  | timedOut =>
      simp [call, newReqMessage_snd, hseq, addSession, hrun, hrec, hns,
        alLookup_erase_self]
  | accepted =>
      cases del with
      | timedOut =>
          simp [call, newReqMessage_snd, hseq, addSession, hrun, hrec, hns,
            alLookup_erase_self]
      | delivered rmsg =>
          by_cases h1 : rmsg.cmdOf = rpcCmdRsp
          · simp [call, newReqMessage_snd, hseq, addSession, hrun, hrec, hns,
              h1, alLookup_erase_self]
          · by_cases h2 : rmsg.cmdOf = rpcCmdErr
            · simp [call, newReqMessage_snd, hseq, addSession, hrun, hrec, hns,
                h1, h2, rpcCmdRsp, rpcCmdErr, alLookup_erase_self]
            · simp [call, newReqMessage_snd, hseq, addSession, hrun, hrec, hns,
                h1, h2, alLookup_erase_self]

/-- Witness for claim C3 at the concrete client, timeout 2, accepted
enqueue and delivery timeout. -/
theorem call_session_always_cleaned_witness :
    exClient.running = true ∧ exClient.reconnecting = false ∧ (0 : Int) < 2 ∧
      (alLookup (call exClient [] [] 2 .accepted .timedOut).2.sessionMap
          ((exClient.seq + 1) % 2 ^ 64) = none ∧
        (sessionGet exClient.sessionPool ((exClient.seq + 1) % 2 ^ 64)).1 ∈
          (call exClient [] [] 2 .accepted .timedOut).2.sessionPool) :=
  ⟨rfl, rfl, by decide,
    call_session_always_cleaned exClient [] [] 2 .accepted .timedOut rfl rfl
      (by decide)⟩

/-- Claim C5: PushMsg on a running, non-reconnecting client honors the
three enqueue policies: a negative timeout or the forever sentinel waits
for the queue and retains the message on the successful enqueue; a zero
timeout is non-blocking, returning the queue-full error on a full queue
and retaining on free capacity; a bounded positive timeout retains on
acceptance and returns the timeout error when the queue does not accept
the message in time. -/
theorem pushMsg_policies (st : ClientState) (msg : Msg) (timeout : Int)
    (enq : EnqOutcome) (hrun : st.running = true) (hrec : st.reconnecting = false) :
    (timeout < 0 ∨ timeout = timeForever →
      pushMsg st msg timeout enq =
        (.ok (), { st with chSend := st.chSend ++ [msg.retain] })) ∧
    (timeout = 0 → st.sendQueueSize ≤ st.chSend.length →
      pushMsg st msg timeout enq = (.error .clientQueueIsFull, st)) ∧
    (timeout = 0 → st.chSend.length < st.sendQueueSize →
      pushMsg st msg timeout enq =
        (.ok (), { st with chSend := st.chSend ++ [msg.retain] })) ∧
    (0 < timeout → timeout ≠ timeForever → enq = .accepted →
      pushMsg st msg timeout enq =
        (.ok (), { st with chSend := st.chSend ++ [msg.retain] })) ∧
    (0 < timeout → timeout ≠ timeForever → enq = .timedOut →
      pushMsg st msg timeout enq = (.error .clientTimeout, st)) := by
  refine ⟨?_, ?_, ?_, ?_, ?_⟩
  · rintro (h | h)
    · have hne : ¬ (timeForever = 0) := by decide
      simp [pushMsg, hrun, hrec, h, hne]
    · have hneg : ¬ (timeout < 0) := by rw [h]; decide
      simp [pushMsg, hrun, hrec, h, hneg]
  · intro h hfull
    have hnl : ¬ (st.chSend.length < st.sendQueueSize) := Nat.not_lt.mpr hfull
    have hneg : ¬ ((0 : Int) < 0) := by decide
    have hfor : ¬ ((0 : Int) = timeForever) := by decide
    simp [pushMsg, hrun, hrec, h, hneg, hfor, hnl]
  · intro h hroom
    have hneg : ¬ ((0 : Int) < 0) := by decide
    have hfor : ¬ ((0 : Int) = timeForever) := by decide
    simp [pushMsg, hrun, hrec, h, hneg, hfor, hroom]
  · intro hpos hfor henq
    have hneg : ¬ (timeout < 0) := by omega
    have hnz : ¬ (timeout = 0) := by omega
    simp [pushMsg, hrun, hrec, henq, hneg, hfor, hnz]
  · intro hpos hfor henq
    have hneg : ¬ (timeout < 0) := by omega
    have hnz : ¬ (timeout = 0) := by omega
    simp [pushMsg, hrun, hrec, henq, hneg, hfor, hnz]

/-- Witness for claim C5 at the concrete client, timeout 5 and an accepted
enqueue: the bounded-wait conjunct applies and the message is retained on
the queue. -/
theorem pushMsg_policies_witness :
    exClient.running = true ∧ exClient.reconnecting = false ∧
      pushMsg exClient exMsg 5 .accepted =
        (.ok (), { exClient with chSend := exClient.chSend ++ [exMsg.retain] }) :=
  ⟨rfl, rfl,
    (pushMsg_policies exClient exMsg 5 .accepted rfl rfl).2.2.2.1 (by decide)
      (by decide) rfl⟩

/-- Counterexample for claim C4: on the concrete client whose counter sits
at 2 ^ 64 - 2, the next two request messages carry sequence numbers
2 ^ 64 - 1 and then 0, so the sequence numbers written by successive
newReqMessage invocations are not strictly increasing at the uint64 wrap
point. -/
theorem newReqMessage_seq_wraps :
    Msg.seqOf (newReqMessage exClientWrap [] [] 0).1 = 2 ^ 64 - 1 ∧
    Msg.seqOf (newReqMessage (newReqMessage exClientWrap [] [] 0).2 [] [] 0).1 = 0 ∧
    ¬ Msg.seqOf (newReqMessage exClientWrap [] [] 0).1 <
        Msg.seqOf (newReqMessage (newReqMessage exClientWrap [] [] 0).2 [] [] 0).1 := by
  decide

/-- Claim C4 as amended: each request message carries the predecessor
counter plus one reduced mod 2 ^ 64, so successive sequence numbers are
strictly increasing as long as the 64-bit counter does not wrap, and while
every pending correlation entry (session or async handler) has a sequence
number at most the current counter, the freshly issued sequence number is
registered for no pending entry. -/
theorem newReqMessage_seq_fresh (st : ClientState) (m1 d1 m2 d2 : List Nat)
    (a1 a2 : Nat) (hwrap : st.seq + 2 < 2 ^ 64)
    (hpend : ∀ q, st.seq < q →
      alLookup st.sessionMap q = none ∧ alLookup st.asyncHandlerMap q = none) :
    Msg.seqOf (newReqMessage st m1 d1 a1).1 = st.seq + 1 ∧
    Msg.seqOf (newReqMessage (newReqMessage st m1 d1 a1).2 m2 d2 a2).1 = st.seq + 2 ∧
    Msg.seqOf (newReqMessage st m1 d1 a1).1 <
      Msg.seqOf (newReqMessage (newReqMessage st m1 d1 a1).2 m2 d2 a2).1 ∧
    alLookup st.sessionMap (Msg.seqOf (newReqMessage st m1 d1 a1).1) = none ∧
    alLookup st.asyncHandlerMap (Msg.seqOf (newReqMessage st m1 d1 a1).1) = none := by
  have h1 : Msg.seqOf (newReqMessage st m1 d1 a1).1 = st.seq + 1 := by
    rw [seqOf_newReqMessage]
    exact Nat.mod_eq_of_lt (by omega)
  have h2 : Msg.seqOf (newReqMessage (newReqMessage st m1 d1 a1).2 m2 d2 a2).1 =
      st.seq + 2 := by
    rw [seqOf_newReqMessage, newReqMessage_snd]
    simp only
    rw [Nat.mod_eq_of_lt (by omega), Nat.mod_eq_of_lt (by omega)]
  refine ⟨h1, h2, ?_, ?_, ?_⟩
  · rw [h1, h2]; omega
  · rw [h1]; exact (hpend (st.seq + 1) (by omega)).1
  · rw [h1]; exact (hpend (st.seq + 1) (by omega)).2

/-- Witness for the amended claim C4 at the concrete fresh client. -/
theorem newReqMessage_seq_fresh_witness :
    exClient.seq + 2 < 2 ^ 64 ∧
      (∀ q, exClient.seq < q →
        alLookup exClient.sessionMap q = none ∧
          alLookup exClient.asyncHandlerMap q = none) ∧
      (Msg.seqOf (newReqMessage exClient [] [] 0).1 = exClient.seq + 1 ∧
        Msg.seqOf (newReqMessage (newReqMessage exClient [] [] 0).2 [] [] 0).1 =
          exClient.seq + 2 ∧
        Msg.seqOf (newReqMessage exClient [] [] 0).1 <
          Msg.seqOf (newReqMessage (newReqMessage exClient [] [] 0).2 [] [] 0).1 ∧
        alLookup exClient.sessionMap (Msg.seqOf (newReqMessage exClient [] [] 0).1) =
          none ∧
        alLookup exClient.asyncHandlerMap
          (Msg.seqOf (newReqMessage exClient [] [] 0).1) = none) :=
  ⟨by decide, fun q hq => ⟨rfl, rfl⟩,
    newReqMessage_seq_fresh exClient [] [] [] [] 0 0 (by decide)
      (fun q hq => ⟨rfl, rfl⟩)⟩

/-- Concrete server state used by witness theorems: secret "s3", no topics,
no authenticated client. -/
def exServer : ServerState := { password := "s3", topics := [], clientData := [] }

/-- Concrete server state where client 3 has authenticated. -/
def exServerAuth : ServerState := (onAuthenticate exServer 3 (.ok "s3")).2

/-- Claim C7: while a connection has not authenticated (its UserData is
nil), subscribe, unsubscribe, publish and publish-to-one requests from it
change no server state on its behalf, and an authenticate request with an
incorrect secret is answered with the invalid-password error and leaves
the connection unauthenticated. -/
theorem unauthenticated_requests_not_honored (st : ServerState) (cli : ClientId)
    (d1 d2 d3 d4 : Except String Topic) (pw : String)
    (hun : alLookup st.clientData cli = none) (hpw : pw ≠ st.password) :
    (onSubscribe st cli d1).2 = st ∧
    (onUnsubscribe st cli d2).2 = st ∧
    (onPublish st cli d3).2.2 = st ∧ (onPublish st cli d3).2.1 = [] ∧
    (onPublishToOne st cli d4).2.2 = st ∧ (onPublishToOne st cli d4).2.1 = [] ∧
    (onAuthenticate st cli (.ok pw)).1 = some (.err .invalidPassword) ∧
    alLookup (onAuthenticate st cli (.ok pw)).2.clientData cli = none := by
  refine ⟨?_, ?_, ?_, ?_, ?_, ?_, ?_, ?_⟩ <;>
    simp [onSubscribe, onUnsubscribe, onPublish, onPublishToOne, onAuthenticate,
      invalid, hun, hpw]

/-- Witness for claim C7 at the concrete server, unauthenticated client 5
and wrong password. -/
theorem unauthenticated_requests_not_honored_witness :
    alLookup exServer.clientData 5 = none ∧ "bad" ≠ exServer.password ∧
      ((onSubscribe exServer 5 (.ok { name := "news", payload := [] })).2 =
          exServer ∧
        (onUnsubscribe exServer 5 (.ok { name := "news", payload := [] })).2 =
          exServer ∧
        (onPublish exServer 5 (.ok { name := "news", payload := [] })).2.2 =
          exServer ∧
        (onPublish exServer 5 (.ok { name := "news", payload := [] })).2.1 = [] ∧
        (onPublishToOne exServer 5 (.ok { name := "news", payload := [] })).2.2 =
          exServer ∧
        (onPublishToOne exServer 5 (.ok { name := "news", payload := [] })).2.1 =
          [] ∧
        (onAuthenticate exServer 5 (.ok "bad")).1 =
          some (.err .invalidPassword) ∧
        alLookup (onAuthenticate exServer 5 (.ok "bad")).2.clientData 5 = none) :=
  ⟨rfl, by decide,
    unauthenticated_requests_not_honored exServer 5
      (.ok { name := "news", payload := [] }) (.ok { name := "news", payload := [] })
      (.ok { name := "news", payload := [] }) (.ok { name := "news", payload := [] })
      "bad" rfl (by decide)⟩

/-- Claim C9: a subscribe, unsubscribe, publish or publish-to-one request
from an unauthenticated connection is answered with no reply at all,
neither success nor error: the handler only logs and returns. -/
theorem unauthenticated_requests_no_reply (st : ServerState) (cli : ClientId)
    (d1 d2 d3 d4 : Except String Topic)
    (hun : alLookup st.clientData cli = none) :
    (onSubscribe st cli d1).1 = none ∧ (onUnsubscribe st cli d2).1 = none ∧
    (onPublish st cli d3).1 = none ∧ (onPublishToOne st cli d4).1 = none := by
  refine ⟨?_, ?_, ?_, ?_⟩ <;>
    simp [onSubscribe, onUnsubscribe, onPublish, onPublishToOne, invalid, hun]

/-- Witness for claim C9 at the concrete server and unauthenticated
client 8. -/
theorem unauthenticated_requests_no_reply_witness :
    alLookup exServer.clientData 8 = none ∧
      ((onSubscribe exServer 8 (.error "e")).1 = none ∧
        (onUnsubscribe exServer 8 (.error "e")).1 = none ∧
        (onPublish exServer 8 (.error "e")).1 = none ∧
        (onPublishToOne exServer 8 (.error "e")).1 = none) :=
  ⟨rfl,
    unauthenticated_requests_no_reply exServer 8 (.error "e") (.error "e")
      (.error "e") (.error "e") rfl⟩

theorem getOrMakeTopic_registers (st : ServerState) (n : String) :
    ∃ tp, alLookup (getOrMakeTopic st n).2.topics n = some tp ∧
      tp.conns = agentConns st n ∧
      (getOrMakeTopic st n).2.clientData = st.clientData := by
  cases h : alLookup st.topics n with
  | some tp =>
      refine ⟨tp, ?_, ?_, ?_⟩ <;> simp [getOrMakeTopic, agentConns, h]
  | none =>
      refine ⟨{ name := n, conns := [] }, ?_, ?_, ?_⟩ <;>
        simp [getOrMakeTopic, agentConns, h, alLookup_insert_self]

theorem topicAgentAdd_clientData (st : ServerState) (n : String) (c : ClientId) :
    (topicAgentAdd st n c).clientData = st.clientData := by
  cases h : alLookup st.topics n with
  | some tp => by_cases hm : c ∈ tp.conns <;> simp [topicAgentAdd, h, hm]
  | none => simp [topicAgentAdd, h]

theorem topicAgentAdd_not_mem (st : ServerState) (n : String) (c : ClientId)
    (tp : TopicAgent) (h : alLookup st.topics n = some tp) (hm : c ∉ tp.conns) :
    agentConns (topicAgentAdd st n c) n = tp.conns ++ [c] := by
  simp [topicAgentAdd, agentConns, h, hm, alLookup_insert_self]

/-- Claim C8 (spec-modelled TopicAgent member set): subscribe is
idempotent. From a state where the authenticated connection is not yet
subscribed to the non-empty topic and is not in its agent member set, a
second subscribe to the same topic succeeds with no state change, and
afterwards the per-connection topic set holds exactly one entry for the
topic and the agent member set exactly one entry for the connection. -/
theorem subscribe_idempotent (st : ServerState) (cli : ClientId) (nm : String)
    (pl : List Nat) (cts : List String)
    (hauth : alLookup st.clientData cli = some cts) (hname : nm ≠ "")
    (hnotsub : nm ∉ cts) (hnotmem : cli ∉ agentConns st nm) :
    (onSubscribe (onSubscribe st cli (.ok { name := nm, payload := pl })).2 cli
        (.ok { name := nm, payload := pl })).1 = some .ok ∧
    (onSubscribe (onSubscribe st cli (.ok { name := nm, payload := pl })).2 cli
        (.ok { name := nm, payload := pl })).2 =
      (onSubscribe st cli (.ok { name := nm, payload := pl })).2 ∧
    ((alLookup (onSubscribe (onSubscribe st cli
          (.ok { name := nm, payload := pl })).2 cli
        (.ok { name := nm, payload := pl })).2.clientData cli).getD []).count nm =
      1 ∧
    (agentConns (onSubscribe (onSubscribe st cli
        (.ok { name := nm, payload := pl })).2 cli
      (.ok { name := nm, payload := pl })).2 nm).count cli = 1 := by
  obtain ⟨tp, htp, hconns, hcdg⟩ := getOrMakeTopic_registers st nm
  have hst1 : (onSubscribe st cli (.ok { name := nm, payload := pl })).2 =
      topicAgentAdd { (getOrMakeTopic st nm).2 with
        clientData := alInsert (getOrMakeTopic st nm).2.clientData cli (nm :: cts) }
        nm cli := by
    simp [onSubscribe, invalid, hauth, hname, hnotsub]
  have hmem2 : cli ∉ tp.conns := by rw [hconns]; exact hnotmem
  have hcd1 : (onSubscribe st cli (.ok { name := nm, payload := pl })).2.clientData =
      alInsert st.clientData cli (nm :: cts) := by
    rw [hst1, topicAgentAdd_clientData]
    simp [hcdg]
  have hcd1l : alLookup (onSubscribe st cli
      (.ok { name := nm, payload := pl })).2.clientData cli = some (nm :: cts) := by
    rw [hcd1]; exact alLookup_insert_self _ _ _
  have hag1 : agentConns (onSubscribe st cli
      (.ok { name := nm, payload := pl })).2 nm = tp.conns ++ [cli] := by
    rw [hst1]
    exact topicAgentAdd_not_mem _ nm cli tp htp hmem2
  have hsub2 : onSubscribe (onSubscribe st cli
        (.ok { name := nm, payload := pl })).2 cli
      (.ok { name := nm, payload := pl }) =
      (some .ok, (onSubscribe st cli (.ok { name := nm, payload := pl })).2) := by
    generalize hgen : (onSubscribe st cli (.ok { name := nm, payload := pl })).2 = s1
      at hcd1l ⊢
    simp [onSubscribe, invalid, hcd1l, hname]
  refine ⟨by rw [hsub2], by rw [hsub2], ?_, ?_⟩
  · rw [hsub2]
    show ((alLookup (onSubscribe st cli
        (.ok { name := nm, payload := pl })).2.clientData cli).getD []).count nm = 1
    rw [hcd1l]
    show (nm :: cts).count nm = 1
    rw [List.count_cons_self, List.count_eq_zero_of_not_mem hnotsub]
  · rw [hsub2]
    show (agentConns (onSubscribe st cli
        (.ok { name := nm, payload := pl })).2 nm).count cli = 1
    rw [hag1, List.count_append, List.count_eq_zero_of_not_mem hmem2]
    simp

/-- Witness for claim C8 at the concrete authenticated server, client 3
and topic "news". -/
theorem subscribe_idempotent_witness :
    alLookup exServerAuth.clientData 3 = some [] ∧ "news" ≠ "" ∧
      "news" ∉ ([] : List String) ∧ 3 ∉ agentConns exServerAuth "news" ∧
      ((onSubscribe (onSubscribe exServerAuth 3
            (.ok { name := "news", payload := [2] })).2 3
          (.ok { name := "news", payload := [2] })).1 = some .ok ∧
        (onSubscribe (onSubscribe exServerAuth 3
            (.ok { name := "news", payload := [2] })).2 3
          (.ok { name := "news", payload := [2] })).2 =
          (onSubscribe exServerAuth 3 (.ok { name := "news", payload := [2] })).2 ∧
        ((alLookup (onSubscribe (onSubscribe exServerAuth 3
              (.ok { name := "news", payload := [2] })).2 3
            (.ok { name := "news", payload := [2] })).2.clientData 3).getD
            []).count "news" = 1 ∧
        (agentConns (onSubscribe (onSubscribe exServerAuth 3
            (.ok { name := "news", payload := [2] })).2 3
          (.ok { name := "news", payload := [2] })).2 "news").count 3 = 1) :=
  ⟨by decide, by decide, by decide, by decide,
    subscribe_idempotent exServerAuth 3 "news" [2] [] (by decide) (by decide)
      (by decide) (by decide)⟩

end Arpc
